import Mathlib

/- Verification of the data-processing pipeline in notebooks/dados_entrada.py.
   The script is embedded shallowly: the in-memory table is a header plus a
   list of rows, cells are optional values (None models NaN/NaT), numeric
   values are modelled as exact rationals, and each numbered step of
   processar_dados is a Lean function on tables. -/

namespace DadosEntrada

/- A calendar date produced by pd.to_datetime with format dd/mm/yyyy. -/
structure DMY where
  day : Nat
  month : Nat
  year : Nat
deriving DecidableEq

/- A non-null cell value: a float (modelled as a rational), a string, or a
   datetime. -/
inductive CellVal where
  | num (q : ℚ)
  | str (s : String)
  | date (d : DMY)
deriving DecidableEq

/- A cell of the table; none models NaN/NaT. -/
abbrev Cell := Option CellVal

/- The Record Table: column names plus rows, each row a list of cells aligned
   with the header. -/
structure Table where
  header : List String
  rows : List (List Cell)
deriving DecidableEq

/- Well-formedness: every row has exactly one cell per column. -/
def Wf (t : Table) : Prop := ∀ r ∈ t.rows, r.length = t.header.length

instance (t : Table) : Decidable (Wf t) := by
  unfold Wf
  infer_instance

/- First-occurrence duplicate removal, the semantics of
   df.drop_duplicates() at line 125: scan left to right, keep a row only if
   an equal row has not been kept before. -/
def dedupFirstAux {α : Type} [DecidableEq α] (seen : List α) : List α → List α
  | [] => []
  | x :: xs => if x ∈ seen then dedupFirstAux seen xs else x :: dedupFirstAux (x :: seen) xs

def dropDuplicates {α : Type} [DecidableEq α] (l : List α) : List α :=
  dedupFirstAux [] l

/- Step 4 of processar_dados (lines 119-130): count duplicated rows and drop
   them when any exist, keeping first occurrences. -/
def duplicatedCount (t : Table) : Nat :=
  t.rows.length - (dropDuplicates t.rows).length

def removerDuplicatas (t : Table) : Table :=
  if 0 < duplicatedCount t then ⟨t.header, dropDuplicates t.rows⟩ else t

/- Column lookup machinery. idxOf finds the first position of a column name
   in the header, as pandas column indexing does. -/
def idxOf (n : String) : List String → Option Nat
  | [] => none
  | h :: hs => if h = n then some 0 else (idxOf n hs).map (fun i => i + 1)

def hasCol (t : Table) (n : String) : Bool :=
  (idxOf n t.header).isSome

def getCol (t : Table) (n : String) : List Cell :=
  match idxOf n t.header with
  | some i => t.rows.map (fun r => r.getD i none)
  | none => []

/- Column assignment df[n] = cs: overwrite in place when the column exists,
   otherwise append it on the right. -/
def setCol (t : Table) (n : String) (cs : List Cell) : Table :=
  match idxOf n t.header with
  | some i => ⟨t.header, (t.rows.zip cs).map (fun p => p.1.set i p.2)⟩
  | none => ⟨t.header ++ [n], (t.rows.zip cs).map (fun p => p.1 ++ [p.2])⟩

/- Splitting a line of characters at a separator, the semantics of
   str.split for a one-character separator. -/
def splitOnChar (sep : Char) : List Char → List (List Char)
  | [] => [[]]
  | c :: cs =>
    let r := splitOnChar sep cs
    if c = sep then [] :: r else (c :: r.headD []) :: r.tail

/- Decimal digit-string parsing. -/
def digitsToNatAux (acc : Nat) : List Char → Option Nat
  | [] => some acc
  | c :: cs => if c.isDigit then digitsToNatAux (acc * 10 + (c.toNat - 48)) cs else none

def digitsToNat (cs : List Char) : Option Nat :=
  match cs with
  | [] => none
  | _ => digitsToNatAux 0 cs

/- Parsing a decimal number the way pd.to_numeric does for plain numeric
   strings: optional sign, digits, optional fractional part; anything else
   fails (and with errors set to coerce becomes null). -/
def parseUnsigned (cs : List Char) : Option ℚ :=
  match splitOnChar '.' cs with
  | [a] => (digitsToNat a).map (fun n => (n : ℚ))
  | [a, b] =>
    match digitsToNat a, digitsToNat b with
    | some x, some y => some ((x : ℚ) + (y : ℚ) / ((10 : ℚ) ^ b.length))
    | _, _ => none
  | _ => none

def parseNumero (cs : List Char) : Option ℚ :=
  match cs with
  | [] => none
  | c :: rest =>
    if c = '-' then (parseUnsigned rest).map (fun q => -q)
    else if c = '+' then parseUnsigned rest
    else parseUnsigned cs

/- Calendar validity used by strptime for the dd/mm/yyyy format. -/
def leapYear (y : Nat) : Bool :=
  (y % 4 = 0 && y % 100 ≠ 0) || y % 400 = 0

def daysInMonth (m y : Nat) : Nat :=
  if m = 2 then (if leapYear y then 29 else 28)
  else if m = 4 || m = 6 || m = 9 || m = 11 then 30
  else 31

def parseDateDMY (cs : List Char) : Option DMY :=
  match splitOnChar '/' cs with
  | [ds, ms, ys] =>
    match digitsToNat ds, digitsToNat ms, digitsToNat ys with
    | some d, some m, some y =>
      if 1 ≤ m && m ≤ 12 && 1 ≤ d && d ≤ daysInMonth m y then some ⟨d, m, y⟩ else none
    | _, _, _ => none
  | _ => none

/- Numeric view of a cell and basic column statistics. -/
def cellNum : Cell → Option ℚ
  | some (.num q) => some q
  | _ => none

def cellDate : Cell → Option DMY
  | some (.date d) => some d
  | _ => none

def numVals (cs : List Cell) : List ℚ := cs.filterMap cellNum

def countNone (cs : List Cell) : Nat := cs.countP (fun c => c.isNone)

/- A column has numeric dtype when every cell is a float or NaN; this is
   what read_csv type inference produces for columns it converts. -/
def isNumericDtype (cs : List Cell) : Bool :=
  cs.all (fun c =>
    match c with
    | none => true
    | some (.num _) => true
    | _ => false)

def meanOf (cs : List Cell) : ℚ := (numVals cs).sum / (numVals cs).length

/- Series.mean: NaN (none) exactly when there is no non-null value. -/
def colMean (cs : List Cell) : Option ℚ :=
  if (numVals cs).isEmpty then none else some (meanOf cs)

def fillWith (mu : ℚ) (cs : List Cell) : List Cell :=
  cs.map (fun c =>
    match c with
    | none => some (.num mu)
    | some v => some v)

/- Per-column body of step 3 (lines 108-112): a numeric-dtype column whose
   mean is not NaN gets its nulls filled with the mean; other columns are
   left alone. -/
def tratarNulosCol (cs : List Cell) : List Cell :=
  if isNumericDtype cs then
    match colMean cs with
    | some mu => fillWith mu cs
    | none => cs
  else cs

def colAt (t : Table) (i : Nat) : List Cell := t.rows.map (fun r => r.getD i none)

def countNulls (t : Table) : Nat :=
  t.rows.foldl (fun a r => a + r.countP (fun c => c.isNone)) 0

/- Step 3 of processar_dados (lines 101-116): when the table holds any null,
   fill each numeric column's nulls with that column's mean. -/
def tratarNulos (t : Table) : Table :=
  if 0 < countNulls t then
    let newCols := (List.range t.header.length).map (fun i => tratarNulosCol (colAt t i))
    ⟨t.header, (List.range t.rows.length).map (fun r => newCols.map (fun col => col.getD r none))⟩
  else t

/- Step 2 of processar_dados (lines 92-99): strip and lowercase the column
   names. -/
def normalizeName (s : String) : String :=
  List.asString
    (((s.data.dropWhile Char.isWhitespace).reverse.dropWhile Char.isWhitespace).reverse.map
      Char.toLower)

def tratarColunas (t : Table) : Table := ⟨t.header.map normalizeName, t.rows⟩

/- Date coercion (line 137): pd.to_datetime with format dd/mm/yyyy and
   errors coerce; unparseable cells become null. -/
def coerceDateCell (c : Cell) : Cell :=
  match c with
  | some (.str s) =>
    match parseDateDMY s.data with
    | some d => some (.date d)
    | none => none
  | some (.date d) => some (.date d)
  | _ => none

def coerceDates (cs : List Cell) : List Cell := cs.map coerceDateCell

/- Amount coercion (line 144): pd.to_numeric with errors coerce. -/
def coerceNumericCell (c : Cell) : Cell :=
  match c with
  | some (.num q) => some (.num q)
  | some (.str s) =>
    match parseNumero s.data with
    | some q => some (.num q)
    | none => none
  | _ => none

def coerceNumeric (cs : List Cell) : List Cell := cs.map coerceNumericCell

def notnaAny (cs : List Cell) : Bool := cs.any Option.isSome

/- English month abbreviations, strftime pattern b. -/
def monthAbbrev : Nat → String
  | 1 => "Jan"
  | 2 => "Feb"
  | 3 => "Mar"
  | 4 => "Apr"
  | 5 => "May"
  | 6 => "Jun"
  | 7 => "Jul"
  | 8 => "Aug"
  | 9 => "Sep"
  | 10 => "Oct"
  | 11 => "Nov"
  | 12 => "Dec"
  | _ => ""

def pad2 (n : Nat) : String := if n < 10 then "0" ++ toString n else toString n

def pad4 (n : Nat) : String :=
  if n < 10 then "000" ++ toString n
  else if n < 100 then "00" ++ toString n
  else if n < 1000 then "0" ++ toString n
  else toString n

/- Derived calendar cells (lines 151-154): year, month, month abbreviation
   and year-month string; null dates yield null derived values. -/
def anoCell (c : Cell) : Cell :=
  match c with
  | some (.date d) => some (.num (d.year : ℚ))
  | _ => none

def mesCell (c : Cell) : Cell :=
  match c with
  | some (.date d) => some (.num (d.month : ℚ))
  | _ => none

def mesNomeCell (c : Cell) : Cell :=
  match c with
  | some (.date d) => some (.str (monthAbbrev d.month))
  | _ => none

def mesAnoCell (c : Cell) : Cell :=
  match c with
  | some (.date d) => some (.str (pad4 d.year ++ "-" ++ pad2 d.month))
  | _ => none

def derivarCalendario (t : Table) : Table :=
  let d := getCol t "data"
  let t1 := setCol t "ano" (d.map anoCell)
  let t2 := setCol t1 "mes" (d.map mesCell)
  let t3 := setCol t2 "mes_nome" (d.map mesNomeCell)
  setCol t3 "mes_ano" (d.map mesAnoCell)

/- Step 5 of processar_dados (lines 132-160): coerce the data column if
   present, then, inside the valor branch, coerce valor and derive the
   calendar columns when the data column exists and has a non-null value. -/
def padronizarDados (t : Table) : Table :=
  let t1 := if hasCol t "data" then setCol t "data" (coerceDates (getCol t "data")) else t
  if hasCol t1 "valor" then
    let t2 := setCol t1 "valor" (coerceNumeric (getCol t1 "valor"))
    if hasCol t2 "data" && notnaAny (getCol t2 "data") then derivarCalendario t2 else t2
  else t1

/- Chronological order on dates and the null-last key order used by
   sort_values. -/
def dmyLe (a b : DMY) : Bool :=
  a.year < b.year ||
    (a.year = b.year && (a.month < b.month || (a.month = b.month && a.day ≤ b.day)))

def optDmyLe : Option DMY → Option DMY → Bool
  | none, none => true
  | none, some _ => false
  | some _, none => true
  | some a, some b => dmyLe a b

def insertSorted {α : Type} (le : α → α → Bool) (x : α) : List α → List α
  | [] => [x]
  | y :: ys => if le y x then y :: insertSorted le x ys else x :: y :: ys

def insertionSort {α : Type} (le : α → α → Bool) : List α → List α
  | [] => []
  | x :: xs => insertSorted le x (insertionSort le xs)

/- Step 8 sorting (line 283): df.sort_values of the data column when present,
   ascending with nulls last. -/
def sortValuesData (t : Table) : Table :=
  match idxOf "data" t.header with
  | some i =>
    ⟨t.header,
      insertionSort
        (fun r s => optDmyLe (cellDate (r.getD i none)) (cellDate (s.getD i none))) t.rows⟩
  | none => t

/- Analyzer reads (steps 6 and 7). -/
def ratLe (a b : ℚ) : Bool := a ≤ b

def sortedNub (l : List ℚ) : List ℚ := insertionSort ratLe (dropDuplicates l)

/- sorted(df[ano].dropna().unique()) at line 230, also the key order of
   groupby(ano). -/
def anosUnicos (t : Table) : List ℚ := sortedNub (numVals (getCol t "ano"))

/- Sum of valor over the rows of a given year, with nulls skipped, the
   groupby sum at line 250. -/
def somaAno (t : Table) (a : ℚ) : ℚ :=
  ((getCol t "ano").zip (getCol t "valor")).foldl
    (fun s p => if p.1 = some (.num a) then s + (cellNum p.2).getD 0 else s) 0

def somaPorAno (t : Table) : List (ℚ × ℚ) :=
  (anosUnicos t).map (fun a => (a, somaAno t a))

def somaValor (t : Table) : ℚ := (numVals (getCol t "valor")).sum

def negValCount (t : Table) : Nat :=
  (numVals (getCol t "valor")).countP (fun q => q < 0)

def adjPairs {α : Type} : List α → List (α × α)
  | [] => []
  | [_] => []
  | a :: b :: rest => (a, b) :: adjPairs (b :: rest)

/- Total growth (lines 229-244): only with valor and ano columns, at least
   two distinct years, and a positive first-year sum. -/
def crescimentoTotal (t : Table) : Option (ℚ × ℚ × ℚ) :=
  if hasCol t "valor" && hasCol t "ano" then
    let as := anosUnicos t
    if 2 ≤ as.length then
      let a0 := as.headD 0
      let a1 := as.getLastD 0
      let s0 := somaAno t a0
      let s1 := somaAno t a1
      if 0 < s0 then some (a0, a1, (s1 - s0) / s0 * 100) else none
    else none
  else none

/- Year-over-year growth entries printed by lines 247-259: one entry per
   adjacent pair of years whose prior sum is positive. -/
def crescimentoAnoAAno (t : Table) : List (ℚ × ℚ × ℚ) :=
  if hasCol t "valor" && hasCol t "ano" then
    if 2 ≤ (anosUnicos t).length then
      (adjPairs (somaPorAno t)).filterMap (fun p =>
        if 0 < p.1.2 then some (p.1.1, p.2.1, (p.2.2 - p.1.2) / p.1.2 * 100) else none)
    else []
  else []

/- The Loader (line 79): read_csv with a semicolon separator and comma as
   the thousands marker. A column every one of whose non-empty fields parses
   numerically (after dropping commas) is converted to floats; other columns
   stay as strings; empty fields are NaN. -/
def readParseNum (f : List Char) : Option ℚ :=
  parseNumero (f.filter (fun c => c ≠ ','))

def readCsv (lines : List String) : Option Table :=
  match lines with
  | [] => none
  | header :: rest =>
    let names := (splitOnChar ';' header.data).map (fun f => List.asString f)
    let raw := rest.map (fun line => splitOnChar ';' line.data)
    let ncols := names.length
    let numericCol := (List.range ncols).map (fun i =>
      raw.all (fun r => (r.getD i []).isEmpty || (readParseNum (r.getD i [])).isSome))
    let rows := raw.map (fun r =>
      (List.range ncols).map (fun i =>
        let f := r.getD i []
        if f.isEmpty then none
        else if numericCol.getD i false then
          match readParseNum f with
          | some q => some (CellVal.num q)
          | none => some (CellVal.str (List.asString f))
        else some (CellVal.str (List.asString f))))
    some ⟨names, rows⟩

/- Which guarded Analyzer sections of processar_dados actually run. -/
structure RunInfo where
  statsSecao : Bool
  tendenciasSecao : Bool
deriving DecidableEq

/- The whole of processar_dados on already-read input lines: steps 2 to 8 in
   the source order, returning the final sorted table and which analysis
   sections ran. I/O failure paths return none. -/
def processarDados (lines : List String) : Option (Table × RunInfo) :=
  match readCsv lines with
  | none => none
  | some t0 =>
    let t1 := tratarColunas t0
    let t2 := tratarNulos t1
    let t3 := removerDuplicatas t2
    let t4 := padronizarDados t3
    let info : RunInfo :=
      ⟨hasCol t4 "valor" && notnaAny (getCol t4 "valor"),
        hasCol t4 "valor" && hasCol t4 "ano"⟩
    some (sortValuesData t4, info)

/- The processed-data CSV written at line 286: semicolon separated, header
   first, nulls as empty fields. -/
def cellToCsv : Cell → String
  | none => ""
  | some (.num q) => toString q
  | some (.str s) => s
  | some (.date d) => pad4 d.year ++ "-" ++ pad2 d.month ++ "-" ++ pad2 d.day

def toCsvLines (t : Table) : List String :=
  String.intercalate ";" t.header :: t.rows.map (fun r => String.intercalate ";" (r.map cellToCsv))

/- Python exceptions that can escape the unwrapped parts of the script:
   a KeyError from indexing a missing column, and the ValueError raised by
   calling date() on NaT. -/
inductive PyErr where
  | keyError (col : String)
  | valueErrorNaT
deriving DecidableEq

/- Column access df[n], raising KeyError when the column is absent. -/
def getColE (t : Table) (n : String) : Except PyErr (List Cell) :=
  if hasCol t n then .ok (getCol t n) else .error (.keyError n)

def minDmy (a b : DMY) : DMY := if dmyLe a b then a else b

def maxDmy (a b : DMY) : DMY := if dmyLe a b then b else a

/- Series.min and Series.max over a datetime column: NaT (none) exactly when
   every entry is null. -/
def tsMin (cs : List Cell) : Option DMY :=
  match cs.filterMap cellDate with
  | [] => none
  | d :: ds => some (ds.foldl minDmy d)

def tsMax (cs : List Cell) : Option DMY :=
  match cs.filterMap cellDate with
  | [] => none
  | d :: ds => some (ds.foldl maxDmy d)

/- Timestamp.date(): raises ValueError on NaT. -/
def natDate (d : Option DMY) : Except PyErr DMY :=
  match d with
  | none => .error .valueErrorNaT
  | some d => .ok d

/- The decade bucket (df[ano] // 10) * 10 of line 394, elementwise with
   nulls propagated. -/
def decadaCell (c : Cell) : Cell :=
  match c with
  | some (.num q) => some (.num ((Rat.floor (q / 10) : ℚ) * 10))
  | _ => none

/- gerar_relatorio_completo (lines 307-432). The embedding keeps what the
   claims observe: the empty and none guards of line 318, the column
   accesses and min/max date calls of the report template in source order
   (each can raise), the decada column added to the shared table at
   line 394, and whether a report string is produced. The report text
   itself and the file write (whose exception is caught at lines 423-429
   and changes nothing observable) are not modelled. -/
def gerarRelatorioCompleto (df : Option Table) : Except PyErr (Option Table × Bool) :=
  match df with
  | none => .ok (none, false)
  | some t =>
    if t.rows.isEmpty then .ok (some t, false)
    else
      match getColE t "data" with
      | .error e => .error e
      | .ok dataCells =>
        match natDate (tsMin dataCells) with
        | .error e => .error e
        | .ok _ =>
          match natDate (tsMax dataCells) with
          | .error e => .error e
          | .ok _ =>
            match getColE t "ano" with
            | .error e => .error e
            | .ok anoCells =>
              match getColE t "mes_ano" with
              | .error e => .error e
              | .ok _ =>
                match getColE t "valor" with
                | .error e => .error e
                | .ok _ =>
                  match getColE t "mes_nome" with
                  | .error e => .error e
                  | .ok _ => .ok (some (setCol t "decada" (anoCells.map decadaCell)), true)

/- exportar_estatisticas_detalhadas (lines 435-484): after the none/empty
   guard the whole body sits inside one try/except, so no exception escapes
   and the table is never written to; the Bool records whether the stats
   were produced rather than swallowed by the except arm. -/
def exportarEstatisticasDetalhadas (df : Option Table) : Option Table × Bool :=
  match df with
  | none => (none, false)
  | some t =>
    if t.rows.isEmpty then (some t, false)
    else (some t, hasCol t "ano" && hasCol t "valor" && hasCol t "mes_nome")

/- The final summary of main (lines 543-557): describe() on the valor
   column and min()/max().date() on the data column, unwrapped. -/
def mainResumo (t : Table) : Except PyErr Unit :=
  match getColE t "valor" with
  | .error e => .error e
  | .ok _ =>
    match getColE t "data" with
    | .error e => .error e
    | .ok dataCells =>
      match natDate (tsMin dataCells) with
      | .error e => .error e
      | .ok _ =>
        match natDate (tsMax dataCells) with
        | .error e => .error e
        | .ok _ => .ok ()

/- Success or failure of each file write the Exporter attempts. -/
structure IOOutcome where
  csvOk : Bool
  xlsxOk : Bool
  relatorioOk : Bool
  statsOk : Bool
deriving DecidableEq

/- Which writers end up attempted in a run of main. -/
structure ExportTrace where
  xlsxAttempted : Bool
  saveOk : Bool
  relatorioAttempted : Bool
  statsAttempted : Bool
deriving DecidableEq

/- Step 8 of processar_dados (lines 282-297): one try block wraps both the
   CSV write and the Excel write; the function returns None when either
   fails, and the Excel write is only reached when the CSV write succeeded.
   Result: (save succeeded, xlsx write attempted). -/
def salvarDados (o : IOOutcome) : Bool × Bool :=
  if o.csvOk then (o.xlsxOk, true) else (false, false)

/- The dispatch in main (lines 505-516): report generation and statistics
   export are called only when processar_dados returned a table, i.e. when
   the save step succeeded; the report writer's own file-write failure is
   caught inside gerar_relatorio_completo, so the statistics export is
   attempted regardless of it. -/
def mainExportTrace (o : IOOutcome) : ExportTrace :=
  let s := salvarDados o
  ⟨s.2, s.1, s.1, s.1⟩

/- Concrete inputs and tables used to settle the claims. -/
def c6Lines : List String :=
  ["data;valor", "01/01/2020;100", "01/01/2020;100", "15/06/2021;-50"]

def c9Lines : List String := ["data;valor"]

def c1Lines : List String := ["data;valor", "01/01/2020;abc"]

/- A cleaned table with two distinct years whose first-year sum is not
   positive. -/
def c2Table : Table :=
  ⟨["ano", "valor"],
    [[some (.num 2020), some (.num (-5))], [some (.num 2021), some (.num 3)]]⟩

/- A cleaned table with two distinct years and positive sums. -/
def c2PosTable : Table :=
  ⟨["ano", "valor"], [[some (.num 2020), some (.num 10)], [some (.num 2021), some (.num 20)]]⟩

/- A non-empty table with no data column. -/
def c3Table : Table := ⟨["x"], [[some (.num 1)]]⟩

/- A non-empty table with no valor column. -/
def c3ValorTable : Table := ⟨["y"], [[some (.num 2)]]⟩

/- A fully processed one-row table with every derived column present. -/
def c8Table : Table :=
  ⟨["data", "valor", "ano", "mes", "mes_nome", "mes_ano"],
    [[some (.date ⟨1, 1, 2020⟩), some (.num 100), some (.num 2020), some (.num 1),
      some (.str "Jan"), some (.str "2020-01")]]⟩

/- The loaded form of c1Lines: a data column of strings and a valor column
   whose single field does not parse numerically. -/
def c1Table : Table :=
  ⟨["data", "valor"], [[some (.str "01/01/2020"), some (.str "abc")]]⟩

/- Concrete columns for the null-filling claims. -/
def c4NumCol : List Cell := [some (.num 1), none, some (.num 4)]

def c4TextCol : List Cell := [some (.str "x"), none]

def c10TextCol : List Cell := [some (.str "abc"), none, some (.str "7")]

theorem mem_dedupFirstAux {α : Type} [DecidableEq α] (s l : List α) (x : α) :
    x ∈ dedupFirstAux s l ↔ x ∈ l ∧ x ∉ s := by
  induction l generalizing s with
  | nil => simp [dedupFirstAux]
  | cons y ys ih =>
    by_cases hy : y ∈ s
    · rw [dedupFirstAux, if_pos hy, ih]
      constructor
      · rintro ⟨h1, h2⟩
        exact ⟨List.mem_cons_of_mem y h1, h2⟩
      · rintro ⟨h1, h2⟩
        rcases List.mem_cons.1 h1 with h1 | h1
        · exact absurd (h1 ▸ hy) h2
        · exact ⟨h1, h2⟩
    · rw [dedupFirstAux, if_neg hy]
      constructor
      · intro hmem
        rcases List.mem_cons.1 hmem with h1 | h1
        · exact ⟨h1 ▸ List.mem_cons_self y ys, h1 ▸ hy⟩
        · rcases (ih (y :: s)).1 h1 with ⟨h2, h3⟩
          refine ⟨List.mem_cons_of_mem y h2, fun hxs => h3 (List.mem_cons_of_mem y hxs)⟩
      · rintro ⟨h1, h2⟩
        rcases List.mem_cons.1 h1 with h1 | h1
        · exact h1 ▸ List.mem_cons_self y _
        · by_cases hxy : x = y
          · exact hxy ▸ List.mem_cons_self y _
          · refine List.mem_cons_of_mem y ((ih (y :: s)).2 ⟨h1, ?_⟩)
            intro hmem
            rcases List.mem_cons.1 hmem with h3 | h3
            · exact hxy h3
            · exact h2 h3

theorem dedupFirstAux_sublist {α : Type} [DecidableEq α] (s l : List α) :
    List.Sublist (dedupFirstAux s l) l := by
  induction l generalizing s with
  | nil => simp [dedupFirstAux]
  | cons y ys ih =>
    by_cases hy : y ∈ s
    · rw [dedupFirstAux, if_pos hy]
      exact (ih s).cons y
    · rw [dedupFirstAux, if_neg hy]
      exact (ih (y :: s)).cons₂ y

theorem dedupFirstAux_nodup {α : Type} [DecidableEq α] (s l : List α) :
    (dedupFirstAux s l).Nodup := by
  induction l generalizing s with
  | nil => simp [dedupFirstAux]
  | cons y ys ih =>
    by_cases hy : y ∈ s
    · rw [dedupFirstAux, if_pos hy]
      exact ih s
    · rw [dedupFirstAux, if_neg hy]
      refine List.nodup_cons.2 ⟨?_, ih (y :: s)⟩
      intro hmem
      exact ((mem_dedupFirstAux _ _ _).1 hmem).2 (List.mem_cons_self y s)

theorem dedupFirstAux_eq_self {α : Type} [DecidableEq α] (s l : List α)
    (hd : l.Nodup) (hs : ∀ x ∈ l, x ∉ s) : dedupFirstAux s l = l := by
  induction l generalizing s with
  | nil => simp [dedupFirstAux]
  | cons y ys ih =>
    have hy : y ∉ s := hs y (List.mem_cons_self y ys)
    rw [dedupFirstAux, if_neg hy]
    rcases List.nodup_cons.1 hd with ⟨hyys, hys⟩
    congr 1
    refine ih (y :: s) hys ?_
    intro x hx hmem
    rcases List.mem_cons.1 hmem with h1 | h1
    · exact hyys (h1 ▸ hx)
    · exact hs x (List.mem_cons_of_mem y hx) h1

theorem mem_dropDuplicates {α : Type} [DecidableEq α] (l : List α) (x : α) :
    x ∈ dropDuplicates l ↔ x ∈ l := by
  rw [dropDuplicates, mem_dedupFirstAux]
  simp

theorem dropDuplicates_sublist {α : Type} [DecidableEq α] (l : List α) :
    List.Sublist (dropDuplicates l) l :=
  dedupFirstAux_sublist [] l

theorem dropDuplicates_nodup {α : Type} [DecidableEq α] (l : List α) :
    (dropDuplicates l).Nodup :=
  dedupFirstAux_nodup [] l

theorem dropDuplicates_idem {α : Type} [DecidableEq α] (l : List α) :
    dropDuplicates (dropDuplicates l) = dropDuplicates l :=
  dedupFirstAux_eq_self [] _ (dropDuplicates_nodup l) (fun x _ => List.not_mem_nil x)

theorem dropDuplicates_toFinset {α : Type} [DecidableEq α] (l : List α) :
    (dropDuplicates l).toFinset = l.toFinset := by
  ext x
  simp [List.mem_toFinset, mem_dropDuplicates]

theorem dropDuplicates_length {α : Type} [DecidableEq α] (l : List α) :
    (dropDuplicates l).length = l.toFinset.card := by
  rw [← dropDuplicates_toFinset]
  exact (List.toFinset_card_of_nodup (dropDuplicates_nodup l)).symm

theorem removerDuplicatas_eq (t : Table) :
    removerDuplicatas t = ⟨t.header, dropDuplicates t.rows⟩ := by
  rw [removerDuplicatas]
  by_cases h : 0 < duplicatedCount t
  · rw [if_pos h]
  · rw [if_neg h]
    have hle : (dropDuplicates t.rows).length ≤ t.rows.length :=
      (dropDuplicates_sublist t.rows).length_le
    have hge : t.rows.length ≤ (dropDuplicates t.rows).length := by
      unfold duplicatedCount at h
      omega
    have heq : dropDuplicates t.rows = t.rows :=
      (dropDuplicates_sublist t.rows).eq_of_length (Nat.le_antisymm hle hge)
    cases t
    simp [heq]

/- Lemmas about column lookup and assignment. -/

theorem idxOf_isSome_iff (n : String) (l : List String) :
    (idxOf n l).isSome ↔ n ∈ l := by
  induction l with
  | nil => simp [idxOf]
  | cons h hs ih =>
    by_cases hh : h = n
    · simp [idxOf, hh]
    · rw [idxOf, if_neg hh]
      have hmap : ((idxOf n hs).map (fun i => i + 1)).isSome = (idxOf n hs).isSome := by
        cases idxOf n hs <;> rfl
      rw [hmap, ih]
      simp only [List.mem_cons]
      constructor
      · exact Or.inr
      · rintro (h1 | h1)
        · exact absurd h1.symm hh
        · exact h1

theorem idxOf_eq_none_iff (n : String) (l : List String) :
    idxOf n l = none ↔ n ∉ l := by
  rw [← Option.not_isSome_iff_eq_none, idxOf_isSome_iff]

theorem hasCol_false_iff (t : Table) (n : String) :
    hasCol t n = false ↔ idxOf n t.header = none := by
  rw [hasCol, ← Option.not_isSome_iff_eq_none]
  cases idxOf n t.header <;> simp

theorem idxOf_lt (n : String) (l : List String) (i : Nat) (h : idxOf n l = some i) :
    i < l.length := by
  induction l generalizing i with
  | nil => simp [idxOf] at h
  | cons a hs ih =>
    by_cases ha : a = n
    · rw [idxOf, if_pos ha] at h
      cases h
      simp
    · rw [idxOf, if_neg ha] at h
      rcases Option.map_eq_some'.1 h with ⟨j, hj, hji⟩
      subst hji
      simpa using ih j hj

theorem idxOf_getD (n : String) (l : List String) (i : Nat) (h : idxOf n l = some i) :
    l.getD i "" = n := by
  induction l generalizing i with
  | nil => simp [idxOf] at h
  | cons a hs ih =>
    by_cases ha : a = n
    · rw [idxOf, if_pos ha] at h
      cases h
      simpa using ha
    · rw [idxOf, if_neg ha] at h
      rcases Option.map_eq_some'.1 h with ⟨j, hj, hji⟩
      subst hji
      simpa using ih j hj

theorem idxOf_inj (m n : String) (l : List String) (i j : Nat)
    (hm : idxOf m l = some i) (hn : idxOf n l = some j) (hmn : m ≠ n) : i ≠ j := by
  intro hij
  subst hij
  exact hmn ((idxOf_getD m l i hm).symm.trans (idxOf_getD n l i hn))

theorem idxOf_append_left (n : String) (l l2 : List String) (i : Nat)
    (h : idxOf n l = some i) : idxOf n (l ++ l2) = some i := by
  induction l generalizing i with
  | nil => simp [idxOf] at h
  | cons a hs ih =>
    by_cases ha : a = n
    · rw [idxOf, if_pos ha] at h
      cases h
      simp [idxOf, ha]
    · rw [idxOf, if_neg ha] at h
      rcases Option.map_eq_some'.1 h with ⟨j, hj, hji⟩
      subst hji
      simp [idxOf, ha, ih j hj]

/- List.getD facts used to push column reads through row updates. -/

theorem getD_set_self {α : Type} (l : List α) (i : Nat) (a d : α) (h : i < l.length) :
    (l.set i a).getD i d = a := by
  induction l generalizing i with
  | nil => simp at h
  | cons x xs ih =>
    cases i with
    | zero => simp
    | succ j => simpa using ih j (by simpa using h)

theorem getD_set_ne {α : Type} (l : List α) (i j : Nat) (a d : α) (h : i ≠ j) :
    (l.set i a).getD j d = l.getD j d := by
  induction l generalizing i j with
  | nil => simp
  | cons x xs ih =>
    cases i with
    | zero =>
      cases j with
      | zero => exact absurd rfl h
      | succ j2 => simp
    | succ i2 =>
      cases j with
      | zero => simp
      | succ j2 => simpa using ih i2 j2 (fun hc => h (by rw [hc]))

theorem getD_append_left {α : Type} (l l2 : List α) (i : Nat) (d : α) (h : i < l.length) :
    (l ++ l2).getD i d = l.getD i d := by
  induction l generalizing i with
  | nil => simp at h
  | cons x xs ih =>
    cases i with
    | zero => simp
    | succ j => simpa using ih j (by simpa using h)

/- Row-level transport lemmas for setCol. -/

theorem map_set_zip_getD (rows : List (List Cell)) (cs : List Cell) (i : Nat)
    (hlen : cs.length = rows.length) (hbound : ∀ r ∈ rows, i < r.length) :
    ((rows.zip cs).map (fun p => p.1.set i p.2)).map (fun r => r.getD i none) = cs := by
  induction rows generalizing cs with
  | nil =>
    cases cs with
    | nil => rfl
    | cons c cs2 => simp at hlen
  | cons r rs ih =>
    cases cs with
    | nil => simp at hlen
    | cons c cs2 =>
      simp only [List.zip_cons_cons, List.map_cons]
      rw [getD_set_self r i c none (hbound r (List.mem_cons_self r rs))]
      congr 1
      exact ih cs2 (by simpa using hlen) (fun r2 h2 => hbound r2 (List.mem_cons_of_mem r h2))

theorem map_set_zip_getD_ne (rows : List (List Cell)) (cs : List Cell) (i j : Nat)
    (hlen : cs.length = rows.length) (hij : i ≠ j) :
    ((rows.zip cs).map (fun p => p.1.set i p.2)).map (fun r => r.getD j none) =
      rows.map (fun r => r.getD j none) := by
  induction rows generalizing cs with
  | nil => simp
  | cons r rs ih =>
    cases cs with
    | nil => simp at hlen
    | cons c cs2 =>
      simp only [List.zip_cons_cons, List.map_cons]
      rw [getD_set_ne r i j c none hij]
      congr 1
      exact ih cs2 (by simpa using hlen)

theorem map_append_zip_getD (rows : List (List Cell)) (cs : List Cell) (j : Nat)
    (hlen : cs.length = rows.length) (hbound : ∀ r ∈ rows, j < r.length) :
    ((rows.zip cs).map (fun p => p.1 ++ [p.2])).map (fun r => r.getD j none) =
      rows.map (fun r => r.getD j none) := by
  induction rows generalizing cs with
  | nil => simp
  | cons r rs ih =>
    cases cs with
    | nil => simp at hlen
    | cons c cs2 =>
      simp only [List.zip_cons_cons, List.map_cons]
      rw [getD_append_left r [c] j none (hbound r (List.mem_cons_self r rs))]
      congr 1
      exact ih cs2 (by simpa using hlen) (fun r2 h2 => hbound r2 (List.mem_cons_of_mem r h2))

/- Header and column facts about setCol. -/

theorem header_setCol_of_hasCol (t : Table) (n : String) (cs : List Cell)
    (h : hasCol t n = true) : (setCol t n cs).header = t.header := by
  rw [hasCol, Option.isSome_iff_exists] at h
  rcases h with ⟨i, hi⟩
  rw [setCol, hi]

theorem header_setCol_of_not_hasCol (t : Table) (n : String) (cs : List Cell)
    (h : hasCol t n = false) : (setCol t n cs).header = t.header ++ [n] := by
  rw [setCol, (hasCol_false_iff t n).1 h]

theorem hasCol_eq_of_header (t u : Table) (h : t.header = u.header) (n : String) :
    hasCol t n = hasCol u n := by
  rw [hasCol, hasCol, h]

theorem hasCol_setCol_self (t : Table) (n : String) (cs : List Cell) :
    hasCol (setCol t n cs) n = true := by
  by_cases h : hasCol t n = true
  · rw [hasCol, header_setCol_of_hasCol t n cs h]
    exact h
  · have hf : hasCol t n = false := by simpa using h
    rw [hasCol, header_setCol_of_not_hasCol t n cs hf]
    rw [show ((idxOf n (t.header ++ [n])).isSome = true) ↔ n ∈ t.header ++ [n] from
      idxOf_isSome_iff n (t.header ++ [n])]
    simp

theorem hasCol_setCol_of_hasCol (t : Table) (n m : String) (cs : List Cell)
    (h : hasCol t m = true) : hasCol (setCol t n cs) m = true := by
  by_cases hn : hasCol t n = true
  · rw [hasCol, header_setCol_of_hasCol t n cs hn]
    exact h
  · have hf : hasCol t n = false := by simpa using hn
    rw [hasCol, header_setCol_of_not_hasCol t n cs hf]
    rw [show ((idxOf m (t.header ++ [n])).isSome = true) ↔ m ∈ t.header ++ [n] from
      idxOf_isSome_iff m (t.header ++ [n])]
    rw [hasCol] at h
    rw [show ((idxOf m t.header).isSome = true) ↔ m ∈ t.header from
      idxOf_isSome_iff m t.header] at h
    exact List.mem_append_left _ h

theorem hasCol_setCol_other (t : Table) (n m : String) (cs : List Cell) (hmn : m ≠ n) :
    hasCol (setCol t n cs) m = hasCol t m := by
  by_cases hn : hasCol t n = true
  · rw [hasCol, header_setCol_of_hasCol t n cs hn, hasCol]
  · have hf : hasCol t n = false := by simpa using hn
    rw [hasCol, header_setCol_of_not_hasCol t n cs hf, hasCol]
    rcases h2 : idxOf m t.header with _ | i
    · rw [idxOf_eq_none_iff] at h2
      have h3 : idxOf m (t.header ++ [n]) = none := by
        rw [idxOf_eq_none_iff]
        intro hmem
        rcases List.mem_append.1 hmem with h4 | h4
        · exact h2 h4
        · exact hmn (by simpa using h4)
      rw [h3]
    · rw [idxOf_append_left m t.header [n] i h2]

theorem length_getCol (t : Table) (n : String) (h : hasCol t n = true) :
    (getCol t n).length = t.rows.length := by
  rw [hasCol, Option.isSome_iff_exists] at h
  rcases h with ⟨i, hi⟩
  rw [getCol]
  rw [hi]
  simp

theorem getCol_setCol_self (t : Table) (n : String) (cs : List Cell)
    (hn : hasCol t n = true) (hwf : Wf t) (hlen : cs.length = t.rows.length) :
    getCol (setCol t n cs) n = cs := by
  rw [hasCol, Option.isSome_iff_exists] at hn
  rcases hn with ⟨i, hi⟩
  have hib : i < t.header.length := idxOf_lt n t.header i hi
  simp only [setCol, getCol, hi]
  exact map_set_zip_getD t.rows cs i hlen (fun r hr => by rw [hwf r hr]; exact hib)

theorem getCol_setCol_ne_mem (t : Table) (n m : String) (cs : List Cell)
    (hn : hasCol t n = true) (hmn : m ≠ n) (hlen : cs.length = t.rows.length) :
    getCol (setCol t n cs) m = getCol t m := by
  rw [hasCol, Option.isSome_iff_exists] at hn
  rcases hn with ⟨i, hi⟩
  rcases h2 : idxOf m t.header with _ | j
  · simp only [setCol, getCol, hi, h2]
  · have hij : i ≠ j := fun h => idxOf_inj m n t.header j i h2 hi hmn h.symm
    simp only [setCol, getCol, hi, h2]
    exact map_set_zip_getD_ne t.rows cs i j hlen hij

theorem getCol_setCol_ne_new (t : Table) (n m : String) (cs : List Cell)
    (hn : hasCol t n = false) (hmn : m ≠ n) (hwf : Wf t) (hlen : cs.length = t.rows.length) :
    getCol (setCol t n cs) m = getCol t m := by
  have h0 : idxOf n t.header = none := (hasCol_false_iff t n).1 hn
  rcases h2 : idxOf m t.header with _ | j
  · have h3 : idxOf m (t.header ++ [n]) = none := by
      rw [idxOf_eq_none_iff] at h2 ⊢
      intro hmem
      rcases List.mem_append.1 hmem with h4 | h4
      · exact h2 h4
      · exact hmn (by simpa using h4)
    simp only [setCol, getCol, h0, h2, h3]
  · have h3 := idxOf_append_left m t.header [n] j h2
    have hjb : j < t.header.length := idxOf_lt m t.header j h2
    simp only [setCol, getCol, h0, h2, h3]
    exact map_append_zip_getD t.rows cs j hlen (fun r hr => by rw [hwf r hr]; exact hjb)

theorem removerDuplicatas_idem (t : Table) :
    removerDuplicatas (removerDuplicatas t) = removerDuplicatas t := by
  rw [removerDuplicatas_eq t, removerDuplicatas_eq]
  simp [dropDuplicates_idem]

set_option maxRecDepth 10000

/-- C5: after the duplicate-removal step the table contains no two equal
rows, the surviving rows form a subsequence of the input rows (first
occurrences, order preserved) that still represents every input row, the
output row count equals the distinct-row count of the input, and applying
the step twice gives the same table as applying it once. -/
theorem C5_dedup_step (t : Table) :
    (removerDuplicatas t).rows.Nodup ∧
    List.Sublist (removerDuplicatas t).rows t.rows ∧
    (∀ r, r ∈ (removerDuplicatas t).rows ↔ r ∈ t.rows) ∧
    (removerDuplicatas t).rows.length = t.rows.toFinset.card ∧
    removerDuplicatas (removerDuplicatas t) = removerDuplicatas t := by
  refine ⟨?_, ?_, ?_, ?_, removerDuplicatas_idem t⟩
  · rw [removerDuplicatas_eq]
    exact dropDuplicates_nodup t.rows
  · rw [removerDuplicatas_eq]
    exact dropDuplicates_sublist t.rows
  · rw [removerDuplicatas_eq]
    exact fun r => mem_dropDuplicates t.rows r
  · rw [removerDuplicatas_eq]
    exact dropDuplicates_length t.rows

/-- C6: on the concrete input with header data;valor and rows
01/01/2020;100, 01/01/2020;100, 15/06/2021;-50, the cleaned table has
exactly 2 rows, the distinct ano values are 2020 and 2021, the global sum
of valor is 50, exactly one valor value is negative, and the total growth
from 2020 to 2021 is -150 percent. -/
theorem C6_scenario :
    (processarDados c6Lines).map (fun p => p.1.rows.length) = some 2 ∧
    (processarDados c6Lines).map (fun p => sortedNub (numVals (getCol p.1 "ano"))) =
      some [2020, 2021] ∧
    (processarDados c6Lines).map (fun p => somaValor p.1) = some 50 ∧
    (processarDados c6Lines).map (fun p => negValCount p.1) = some 1 ∧
    (processarDados c6Lines).map (fun p => crescimentoTotal p.1) =
      some (some (2020, 2021, -150)) := by
  with_unfolding_all decide

/-- C9: on a header-only input the Loader succeeds with zero rows, the
Analyzer sections that reference valor or ano are skipped, and the
processed CSV that the Exporter writes consists of the header line only. -/
theorem C9_empty_input :
    readCsv c9Lines = some ⟨["data", "valor"], []⟩ ∧
    (processarDados c9Lines).map (fun p => (p.1.rows.length, p.2.statsSecao, p.2.tendenciasSecao)) =
      some (0, false, false) ∧
    (processarDados c9Lines).map (fun p => toCsvLines p.1) = some ["data;valor"] := by
  with_unfolding_all decide

/-- C1 counterexample: for the input whose valor column is entirely
unparseable (hence entirely null after coercion) while data has a parseable
value, the Cleaner still creates all four derived calendar columns,
contradicting the claim that none are added when valor has no non-null
value. -/
theorem C1_counterexample :
    (processarDados c1Lines).map (fun p =>
      (hasCol p.1 "ano", hasCol p.1 "mes", hasCol p.1 "mes_nome", hasCol p.1 "mes_ano")) =
      some (true, true, true, true) ∧
    (processarDados c1Lines).map (fun p => getCol p.1 "valor") = some [none] ∧
    (processarDados c1Lines).map (fun p => notnaAny (getCol p.1 "valor")) = some false := by
  with_unfolding_all decide

/-- C1 (amended): the Cleaner creates the derived columns ano, mes,
mes_nome, mes_ano if and only if the valor column exists, the data column
exists, and data has at least one parseable (non-null) value after
coercion; whether valor has any non-null value is irrelevant. -/
theorem C1_derived_iff (t : Table) (hwf : Wf t)
    (h1 : hasCol t "ano" = false) (h2 : hasCol t "mes" = false)
    (h3 : hasCol t "mes_nome" = false) (h4 : hasCol t "mes_ano" = false) :
    (hasCol (padronizarDados t) "ano" = true ∧ hasCol (padronizarDados t) "mes" = true ∧
      hasCol (padronizarDados t) "mes_nome" = true ∧
      hasCol (padronizarDados t) "mes_ano" = true) ↔
      (hasCol t "valor" = true ∧ hasCol t "data" = true ∧
        notnaAny (coerceDates (getCol t "data")) = true) := by
  rw [padronizarDados]
  simp only
  split
  next hdd =>
    have hcd : (coerceDates (getCol t "data")).length = t.rows.length := by
      rw [coerceDates, List.length_map]
      exact length_getCol t "data" hdd
    have hu1hdr : (setCol t "data" (coerceDates (getCol t "data"))).header = t.header :=
      header_setCol_of_hasCol t "data" _ hdd
    have hu1has : ∀ n, hasCol (setCol t "data" (coerceDates (getCol t "data"))) n = hasCol t n :=
      fun n => hasCol_eq_of_header _ t hu1hdr n
    split
    next hvv =>
      have hv : hasCol t "valor" = true := by rw [← hu1has "valor"]; exact hvv
      have hlenv :
          (coerceNumeric
            (getCol (setCol t "data" (coerceDates (getCol t "data"))) "valor")).length =
            (setCol t "data" (coerceDates (getCol t "data"))).rows.length := by
        rw [coerceNumeric, List.length_map]
        exact length_getCol _ "valor" hvv
      have hu2hdr :
          (setCol (setCol t "data" (coerceDates (getCol t "data"))) "valor"
            (coerceNumeric
              (getCol (setCol t "data" (coerceDates (getCol t "data"))) "valor"))).header =
            t.header := by
        rw [header_setCol_of_hasCol _ "valor" _ hvv]
        exact hu1hdr
      have hu2has :
          ∀ n, hasCol (setCol (setCol t "data" (coerceDates (getCol t "data"))) "valor"
            (coerceNumeric
              (getCol (setCol t "data" (coerceDates (getCol t "data"))) "valor"))) n =
            hasCol t n :=
        fun n => hasCol_eq_of_header _ t hu2hdr n
      have hgdata :
          getCol (setCol (setCol t "data" (coerceDates (getCol t "data"))) "valor"
            (coerceNumeric
              (getCol (setCol t "data" (coerceDates (getCol t "data"))) "valor"))) "data" =
            coerceDates (getCol t "data") := by
        rw [getCol_setCol_ne_mem _ "valor" "data" _ hvv (by decide) hlenv]
        exact getCol_setCol_self t "data" _ hdd hwf hcd
      split
      next hcc =>
        have hna : notnaAny (coerceDates (getCol t "data")) = true := by
          rw [Bool.and_eq_true] at hcc
          rw [← hgdata]
          exact hcc.2
        constructor
        · intro _
          exact ⟨hv, hdd, hna⟩
        · intro _
          rw [derivarCalendario]
          refine ⟨?_, ?_, ?_, ?_⟩
          · exact hasCol_setCol_of_hasCol _ "mes_ano" "ano" _
              (hasCol_setCol_of_hasCol _ "mes_nome" "ano" _
                (hasCol_setCol_of_hasCol _ "mes" "ano" _ (hasCol_setCol_self _ "ano" _)))
          · exact hasCol_setCol_of_hasCol _ "mes_ano" "mes" _
              (hasCol_setCol_of_hasCol _ "mes_nome" "mes" _ (hasCol_setCol_self _ "mes" _))
          · exact hasCol_setCol_of_hasCol _ "mes_ano" "mes_nome" _
              (hasCol_setCol_self _ "mes_nome" _)
          · exact hasCol_setCol_self _ "mes_ano" _
      next hcc =>
        constructor
        · rintro ⟨hfalse, -⟩
          rw [hu2has "ano", h1] at hfalse
          cases hfalse
        · rintro ⟨-, -, hna⟩
          exfalso
          apply hcc
          rw [hu2has "data", hgdata, hdd, hna]
          rfl
    next hvv =>
      have hv : hasCol t "valor" = false := by
        rw [← hu1has "valor"]
        simpa using hvv
      constructor
      · rintro ⟨hfalse, -⟩
        rw [hu1has "ano", h1] at hfalse
        cases hfalse
      · rintro ⟨hfalse, -⟩
        rw [hv] at hfalse
        cases hfalse
  next hdd =>
    have hd : hasCol t "data" = false := by simpa using hdd
    split
    next hvv =>
      split
      next hcc =>
        exfalso
        rw [hasCol_setCol_other t "valor" "data" _ (by decide), hd] at hcc
        cases hcc
      next hcc =>
        constructor
        · rintro ⟨hfalse, -⟩
          rw [hasCol_setCol_other t "valor" "ano" _ (by decide), h1] at hfalse
          cases hfalse
        · rintro ⟨-, hfalse, -⟩
          rw [hd] at hfalse
          cases hfalse
    next hvv =>
      have hv : hasCol t "valor" = false := by simpa using hvv
      constructor
      · rintro ⟨hfalse, -⟩
        rw [h1] at hfalse
        cases hfalse
      · rintro ⟨hfalse, -⟩
        rw [hv] at hfalse
        cases hfalse

/-- C1 witness: the amended equivalence applied to the concrete loaded
table of c1Lines, whose hypotheses are discharged by computation. -/
theorem C1_witness :
    Wf c1Table ∧
    ((hasCol (padronizarDados c1Table) "ano" = true ∧
        hasCol (padronizarDados c1Table) "mes" = true ∧
        hasCol (padronizarDados c1Table) "mes_nome" = true ∧
        hasCol (padronizarDados c1Table) "mes_ano" = true) ↔
      (hasCol c1Table "valor" = true ∧ hasCol c1Table "data" = true ∧
        notnaAny (coerceDates (getCol c1Table "data")) = true)) :=
  ⟨by decide,
    C1_derived_iff c1Table (by decide) (by decide) (by decide) (by decide) (by decide)⟩

/- Arithmetic of the mean-fill step. -/

theorem numVals_cons_none (cs : List Cell) : numVals (none :: cs) = numVals cs := rfl

theorem numVals_cons_num (q : ℚ) (cs : List Cell) :
    numVals (some (.num q) :: cs) = q :: numVals cs := rfl

theorem numVals_fillWith_cons_none (mu : ℚ) (cs : List Cell) :
    numVals (fillWith mu (none :: cs)) = mu :: numVals (fillWith mu cs) := rfl

theorem numVals_fillWith_cons_num (mu q : ℚ) (cs : List Cell) :
    numVals (fillWith mu (some (.num q) :: cs)) = q :: numVals (fillWith mu cs) := rfl

theorem countNone_cons_none (cs : List Cell) : countNone (none :: cs) = countNone cs + 1 := by
  simp [countNone, List.countP_cons]

theorem countNone_cons_some (v : CellVal) (cs : List Cell) :
    countNone (some v :: cs) = countNone cs := by
  simp [countNone, List.countP_cons]

theorem numVals_fillWith_sum (cs : List Cell) (mu : ℚ) (h : isNumericDtype cs = true) :
    (numVals (fillWith mu cs)).sum = (numVals cs).sum + (countNone cs : ℚ) * mu := by
  induction cs with
  | nil => simp [numVals, fillWith, countNone]
  | cons c cs2 ih =>
    rw [isNumericDtype, List.all_cons, Bool.and_eq_true] at h
    have ih2 := ih h.2
    rcases c with _ | v
    · rw [numVals_fillWith_cons_none, numVals_cons_none, List.sum_cons, ih2,
        countNone_cons_none]
      push_cast
      ring
    · rcases v with q | q | q
      · rw [numVals_fillWith_cons_num, numVals_cons_num, List.sum_cons, List.sum_cons, ih2,
          countNone_cons_some]
        ring
      · simp at h
      · simp at h

theorem numVals_fillWith_length (cs : List Cell) (mu : ℚ) (h : isNumericDtype cs = true) :
    (numVals (fillWith mu cs)).length = (numVals cs).length + countNone cs := by
  induction cs with
  | nil => simp [numVals, fillWith, countNone]
  | cons c cs2 ih =>
    rw [isNumericDtype, List.all_cons, Bool.and_eq_true] at h
    have ih2 := ih h.2
    rcases c with _ | v
    · rw [numVals_fillWith_cons_none, numVals_cons_none, List.length_cons, ih2,
        countNone_cons_none]
      omega
    · rcases v with q | q | q
      · rw [numVals_fillWith_cons_num, numVals_cons_num, List.length_cons, List.length_cons,
          ih2, countNone_cons_some]
        omega
      · simp at h
      · simp at h

theorem meanOf_fillWith (cs : List Cell) (h : isNumericDtype cs = true)
    (hne : (numVals cs).length ≠ 0) :
    meanOf (fillWith (meanOf cs) cs) = meanOf cs := by
  have hs := numVals_fillWith_sum cs (meanOf cs) h
  have hl := numVals_fillWith_length cs (meanOf cs) h
  rw [meanOf, hs, hl, meanOf]
  have hm : ((numVals cs).length : ℚ) ≠ 0 := by exact_mod_cast hne
  have hmk : (((numVals cs).length : ℚ) + (countNone cs : ℚ)) ≠ 0 := by positivity
  push_cast
  field_simp
  ring

theorem fillWith_getD (cs : List Cell) (mu : ℚ) (i : Nat) (h : i < cs.length) :
    (fillWith mu cs).getD i none =
      match cs.getD i none with
      | none => some (.num mu)
      | some v => some v := by
  induction cs generalizing i with
  | nil => simp at h
  | cons c cs2 ih =>
    cases i with
    | zero => cases c <;> rfl
    | succ j =>
      simp only [fillWith, List.map_cons, List.getD_cons_succ]
      exact ih j (by simpa using h)

/-- C4: for a numeric-dtype column with at least one non-null value, the
null-filling step is exactly mean-filling: every missing entry becomes the
column's arithmetic mean over the non-null values, every present entry is
kept, non-numeric columns are left untouched, and the column mean after
filling equals the mean before (exact rational arithmetic). -/
theorem C4_mean_fill (cs cs2 : List Cell)
    (hnum : isNumericDtype cs = true) (hne : (numVals cs).length ≠ 0)
    (hnn : isNumericDtype cs2 = false) :
    tratarNulosCol cs = fillWith (meanOf cs) cs ∧
    (∀ i, i < cs.length → cs.getD i none = none →
      (tratarNulosCol cs).getD i none = some (.num (meanOf cs))) ∧
    (∀ i v, cs.getD i none = some v → (tratarNulosCol cs).getD i none = some v) ∧
    tratarNulosCol cs2 = cs2 ∧
    meanOf (tratarNulosCol cs) = meanOf cs := by
  have hemp : (numVals cs).isEmpty = false := by
    cases h2 : numVals cs with
    | nil =>
      exfalso
      apply hne
      rw [h2]
      rfl
    | cons a l => rfl
  have hfill : tratarNulosCol cs = fillWith (meanOf cs) cs := by
    rw [tratarNulosCol, if_pos hnum, colMean, hemp]
    rfl
  refine ⟨hfill, ?_, ?_, ?_, ?_⟩
  · intro i hlt hnull
    rw [hfill, fillWith_getD cs (meanOf cs) i hlt, hnull]
  · intro i v hv
    have hlt : i < cs.length := by
      by_contra hge
      rw [List.getD_eq_default _ _ (Nat.le_of_not_lt hge)] at hv
      cases hv
    rw [hfill, fillWith_getD cs (meanOf cs) i hlt, hv]
  · rw [tratarNulosCol, if_neg (by simp [hnn])]
  · rw [hfill]
    exact meanOf_fillWith cs hnum hne

/-- C4 witness: the mean-fill properties applied to the concrete numeric
column with a null and a concrete text column. -/
theorem C4_witness :
    isNumericDtype c4NumCol = true ∧ (numVals c4NumCol).length ≠ 0 ∧
      isNumericDtype c4TextCol = false ∧
      meanOf (tratarNulosCol c4NumCol) = meanOf c4NumCol :=
  ⟨by decide, by decide, by decide,
    (C4_mean_fill c4NumCol c4TextCol (by decide) (by decide) (by decide)).2.2.2.2⟩

theorem getD_map_none (f : Cell → Cell) (hf : f none = none) (cs : List Cell) (i : Nat) :
    (cs.map f).getD i none = f (cs.getD i none) := by
  induction cs generalizing i with
  | nil => simp [hf]
  | cons c cs2 ih =>
    cases i with
    | zero => rfl
    | succ j => simpa using ih j

/-- C10: because the null-filling step runs before the valor coercion and
only fills numeric-dtype columns, a valor column loaded as text passes
through null-filling unchanged, its nulls are still null after coercion,
and any entry that fails numeric parsing during coercion is null in the
cleaned column; none of these cells is replaced by a mean. -/
theorem C10_nulls_survive (cs : List Cell) (h : isNumericDtype cs = false) :
    coerceNumeric (tratarNulosCol cs) = coerceNumeric cs ∧
    (∀ i, cs.getD i none = none → (coerceNumeric (tratarNulosCol cs)).getD i none = none) ∧
    (∀ i s, cs.getD i none = some (.str s) → parseNumero s.data = none →
      (coerceNumeric (tratarNulosCol cs)).getD i none = none) := by
  have hskip : tratarNulosCol cs = cs := by
    rw [tratarNulosCol, if_neg (by simp [h])]
  refine ⟨by rw [hskip], ?_, ?_⟩
  · intro i hnone
    rw [hskip, coerceNumeric, getD_map_none coerceNumericCell rfl cs i, hnone]
    rfl
  · intro i s hstr hparse
    rw [hskip, coerceNumeric, getD_map_none coerceNumericCell rfl cs i, hstr]
    simp [coerceNumericCell, hparse]

/-- C10 witness: the survival of nulls applied to a concrete text-loaded
valor column. -/
theorem C10_witness :
    isNumericDtype c10TextCol = false ∧
      coerceNumeric (tratarNulosCol c10TextCol) = coerceNumeric c10TextCol :=
  ⟨by decide, (C10_nulls_survive c10TextCol (by decide)).1⟩

/- Combinatorics of the adjacent-pair growth list. -/

theorem adjPairs_length {α : Type} (l : List α) : (adjPairs l).length = l.length - 1 := by
  induction l with
  | nil => rfl
  | cons a l2 ih =>
    cases l2 with
    | nil => rfl
    | cons b rest =>
      rw [adjPairs, List.length_cons, ih]
      simp

theorem length_filterMap_ite {α β : Type} (P : α → Prop) [DecidablePred P] (g : α → β)
    (l : List α) :
    (l.filterMap (fun a => if P a then some (g a) else none)).length =
      (l.filter (fun a => decide (P a))).length := by
  induction l with
  | nil => rfl
  | cons a l2 ih =>
    by_cases hp : P a
    · simp only [List.filterMap_cons, List.filter_cons, if_pos hp, decide_eq_true hp]
      simp [ih]
    · simp only [List.filterMap_cons, List.filter_cons, if_neg hp]
      rw [decide_eq_false hp]
      simpa using ih

/-- C2 counterexample: a cleaned table with exactly two distinct years whose
first-year sum is negative produces an empty year-over-year growth list, so
the list length is not (number of distinct years) − 1. -/
theorem C2_counterexample :
    (anosUnicos c2Table).length = 2 ∧
    (crescimentoAnoAAno c2Table).length ≠ (anosUnicos c2Table).length - 1 := by
  with_unfolding_all decide

/-- C2 (amended): with valor and ano columns present, the year-over-year
growth list is empty when fewer than two distinct years exist; the list of
adjacent year pairs has length (distinct years) − 1, and with at least two
distinct years the produced entries are exactly the adjacent pairs whose
prior-year sum is positive — a pair is skipped precisely when the prior sum
is ≤ 0 — so the produced length equals (distinct years) − 1 exactly under
the extra assumption that every prior-year sum is positive. -/
theorem C2_yoy_growth (t : Table) (hv : hasCol t "valor" = true)
    (ha : hasCol t "ano" = true) :
    ((anosUnicos t).length < 2 → crescimentoAnoAAno t = []) ∧
    (adjPairs (somaPorAno t)).length = (anosUnicos t).length - 1 ∧
    (2 ≤ (anosUnicos t).length →
      (crescimentoAnoAAno t).length =
        ((adjPairs (somaPorAno t)).filter (fun p => decide (0 < p.1.2))).length) ∧
    ((∀ p ∈ adjPairs (somaPorAno t), 0 < p.1.2) → 2 ≤ (anosUnicos t).length →
      (crescimentoAnoAAno t).length = (anosUnicos t).length - 1) := by
  have hcond : (hasCol t "valor" && hasCol t "ano") = true := by
    rw [hv, ha]
    rfl
  have hlenSoma : (somaPorAno t).length = (anosUnicos t).length := by
    rw [somaPorAno, List.length_map]
  have hpart2 : (adjPairs (somaPorAno t)).length = (anosUnicos t).length - 1 := by
    rw [adjPairs_length, hlenSoma]
  have hpart3 : 2 ≤ (anosUnicos t).length →
      (crescimentoAnoAAno t).length =
        ((adjPairs (somaPorAno t)).filter (fun p => decide (0 < p.1.2))).length := by
    intro hge
    rw [crescimentoAnoAAno, if_pos hcond, if_pos hge]
    exact length_filterMap_ite (fun p => 0 < p.1.2) _ (adjPairs (somaPorAno t))
  refine ⟨?_, hpart2, hpart3, ?_⟩
  · intro hlt
    rw [crescimentoAnoAAno, if_pos hcond, if_neg (by omega)]
  · intro hall hge
    rw [hpart3 hge, List.filter_eq_self.2 (fun p hp => decide_eq_true (hall p hp)), hpart2]

/-- C2 witness: the amended year-over-year growth facts applied to a
concrete table with two years of positive sums. -/
theorem C2_witness :
    hasCol c2PosTable "valor" = true ∧ hasCol c2PosTable "ano" = true ∧
      (crescimentoAnoAAno c2PosTable).length = (anosUnicos c2PosTable).length - 1 :=
  ⟨by decide, by decide,
    (C2_yoy_growth c2PosTable (by decide) (by decide)).2.2.2
      (by with_unfolding_all decide) (by with_unfolding_all decide)⟩

/-- C3 counterexample: on a concrete non-empty table lacking the data
column, report generation raises a KeyError that no handler catches, so an
exception does propagate past a top-level stage function. -/
theorem C3_counterexample :
    c3Table.rows.isEmpty = false ∧
    gerarRelatorioCompleto (some c3Table) = .error (.keyError "data") :=
  ⟨rfl, by with_unfolding_all rfl⟩

/-- C3 (amended): the Loader, the save step, the statistics export and the
report's file write are wrapped, but gerar_relatorio_completo and the final
summary of main are not: every non-empty table without a data column makes
the report stage raise KeyError for data, and any table without a valor
column makes main's summary raise KeyError for valor. -/
theorem C3_report_raises (t u : Table) (ht : t.rows.isEmpty = false)
    (hd : hasCol t "data" = false) (hv : hasCol u "valor" = false) :
    gerarRelatorioCompleto (some t) = .error (.keyError "data") ∧
    mainResumo u = .error (.keyError "valor") := by
  constructor
  · simp only [gerarRelatorioCompleto, ht, Bool.false_eq_true, if_false, getColE, hd]
  · simp only [mainResumo, getColE, hv, Bool.false_eq_true, if_false]

/-- C3 witness: the raising behaviour applied to the concrete tables
without a data column and without a valor column. -/
theorem C3_witness :
    c3Table.rows.isEmpty = false ∧ hasCol c3Table "data" = false ∧
      hasCol c3ValorTable "valor" = false ∧
      mainResumo c3ValorTable = .error (.keyError "valor") :=
  ⟨rfl, by decide, by decide,
    (C3_report_raises c3Table c3ValorTable rfl (by decide) (by decide)).2⟩

/-- C7 counterexample: when the CSV write succeeds but the spreadsheet
write fails, processar_dados returns None and main attempts neither the
report writer nor the statistics writer, contradicting the claim that only
a primary-CSV failure aborts the export. -/
theorem C7_counterexample :
    (mainExportTrace ⟨true, false, true, true⟩).relatorioAttempted = false ∧
    (mainExportTrace ⟨true, false, true, true⟩).statsAttempted = false ∧
    (⟨true, false, true, true⟩ : IOOutcome).csvOk = true := by
  decide

/-- C7 (amended): the report and statistics writers have their own
boundaries — the statistics export is attempted regardless of the report
write's outcome — but the CSV and spreadsheet writes share one boundary:
the downstream writers are attempted exactly when both succeed, and the
spreadsheet write is attempted exactly when the CSV write succeeded. -/
theorem C7_export_boundaries (o : IOOutcome) :
    (mainExportTrace o).relatorioAttempted = (o.csvOk && o.xlsxOk) ∧
    (mainExportTrace o).statsAttempted = (o.csvOk && o.xlsxOk) ∧
    (mainExportTrace o).xlsxAttempted = o.csvOk ∧
    (mainExportTrace o).statsAttempted =
      (mainExportTrace ⟨o.csvOk, o.xlsxOk, !o.relatorioOk, o.statsOk⟩).statsAttempted := by
  rcases o with ⟨a, b, c, d⟩
  cases a <;> cases b <;> exact ⟨rfl, rfl, rfl, rfl⟩

/-- C8 counterexample: report generation is not read-only for the Record
Table: on a fully processed concrete table it appends the decada column,
changing the table's columns. -/
theorem C8_counterexample :
    "decada" ∉ c8Table.header ∧
    gerarRelatorioCompleto (some c8Table) =
      .ok (some ⟨c8Table.header ++ ["decada"],
        [[some (.date ⟨1, 1, 2020⟩), some (.num 100), some (.num 2020), some (.num 1),
          some (.str "Jan"), some (.str "2020-01"), some (.num 2020)]]⟩, true) := by
  constructor
  · decide
  · with_unfolding_all rfl

/-- C8 (amended): the statistics export never modifies the table and the
report generation leaves every existing column's values unchanged, but the
report generation is not read-only: it appends the derived decada column
to the shared table. -/
theorem C8_report_mutates (t : Table) (hwf : Wf t) (ht : t.rows.isEmpty = false)
    (hdec : hasCol t "decada" = false)
    (hdata : hasCol t "data" = true)
    (hdates : (getCol t "data").filterMap cellDate ≠ [])
    (hano : hasCol t "ano" = true) (hma : hasCol t "mes_ano" = true)
    (hv : hasCol t "valor" = true) (hmn : hasCol t "mes_nome" = true) :
    gerarRelatorioCompleto (some t) =
      .ok (some (setCol t "decada" ((getCol t "ano").map decadaCell)), true) ∧
    (setCol t "decada" ((getCol t "ano").map decadaCell)).header = t.header ++ ["decada"] ∧
    (∀ n, n ≠ "decada" →
      getCol (setCol t "decada" ((getCol t "ano").map decadaCell)) n = getCol t n) ∧
    (∀ df, (exportarEstatisticasDetalhadas df).1 = df) := by
  have hlen : ((getCol t "ano").map decadaCell).length = t.rows.length := by
    rw [List.length_map]
    exact length_getCol t "ano" hano
  have hgd : getColE t "data" = .ok (getCol t "data") := by
    rw [getColE, if_pos hdata]
  have hga : getColE t "ano" = .ok (getCol t "ano") := by
    rw [getColE, if_pos hano]
  have hgm : getColE t "mes_ano" = .ok (getCol t "mes_ano") := by
    rw [getColE, if_pos hma]
  have hgv : getColE t "valor" = .ok (getCol t "valor") := by
    rw [getColE, if_pos hv]
  have hgn : getColE t "mes_nome" = .ok (getCol t "mes_nome") := by
    rw [getColE, if_pos hmn]
  rcases hfm : (getCol t "data").filterMap cellDate with _ | ⟨d0, ds⟩
  · exact absurd hfm hdates
  have hmin : tsMin (getCol t "data") = some (ds.foldl minDmy d0) := by
    rw [tsMin, hfm]
  have hmax : tsMax (getCol t "data") = some (ds.foldl maxDmy d0) := by
    rw [tsMax, hfm]
  refine ⟨?_, ?_, ?_, ?_⟩
  · simp only [gerarRelatorioCompleto, ht, Bool.false_eq_true, if_false, hgd, hmin, hmax,
      natDate, hga, hgm, hgv, hgn]
  · exact header_setCol_of_not_hasCol t "decada" _ hdec
  · intro n hne
    exact getCol_setCol_ne_new t "decada" n _ hdec hne hwf hlen
  · intro df
    rcases df with _ | t2
    · rfl
    · simp only [exportarEstatisticasDetalhadas]
      by_cases h2 : t2.rows.isEmpty = true
      · rw [if_pos h2]
      · rw [if_neg h2]

/-- C8 witness: the mutation facts applied to the concrete fully processed
table. -/
theorem C8_witness :
    Wf c8Table ∧ hasCol c8Table "decada" = false ∧
      (setCol c8Table "decada" ((getCol c8Table "ano").map decadaCell)).header =
        c8Table.header ++ ["decada"] :=
  ⟨by decide, by decide,
    (C8_report_mutates c8Table (by decide) rfl (by decide) (by decide)
      (by with_unfolding_all decide) (by decide) (by decide) (by decide) (by decide)).2.1⟩

end DadosEntrada
